import Mathlib

/-!
# Fleet Tracker — verification of the location service and session screens

Shallow embedding of `src/services/LocationService.js` (accuracy filter,
offline queue, flush loop, tracking lifecycle) and of the polling constants
of the session screen (`src/unnamed/part_000`), with theorems checking the
specification's claims about them.

Conventions of the embedding:
* JavaScript numbers are modelled as rationals (`ℚ`); nullable values as
  `Option`.
* `AsyncStorage` under the single key `fleet_offline_queue` is modelled as
  `Option (List α)`: `none` is a missing key, `some q` is the JSON array `q`.
* JavaScript truthiness of the identifier fields (`null`, `undefined` and
  `""` are falsy) is modelled by `jsFalsy`.
* Network effects are oracles passed in as arguments: `NetInfo.fetch` is an
  `Except Unit Bool` (it may throw, or report `isConnected`), and a POST is a
  `Bool`-valued function of its body (`res.ok`, with a thrown/timed-out fetch
  already folded to `false` exactly as the source's `catch` blocks do).
-/

namespace FleetTracker

/-- `location.coords` of an expo-location sample: latitude, longitude and the
nullable accuracy / speed / heading / altitude fields read by the service. -/
structure Coords where
  latitude : ℚ
  longitude : ℚ
  accuracy : Option ℚ
  speed : Option ℚ
  heading : Option ℚ
  altitude : Option ℚ
deriving DecidableEq, Repr

/-- A raw location object delivered to `handleLocationUpdate`. -/
structure LocationObject where
  coords : Coords
  timestamp : ℚ
deriving DecidableEq, Repr

/-- The payload built by `handleLocationUpdate` lines 199–209: routing
identifiers plus the sample's fields. -/
structure Payload where
  technicianId : String
  userId : String
  lat : ℚ
  lng : ℚ
  accuracy : Option ℚ
  speed : Option ℚ
  heading : Option ℚ
  altitude : Option ℚ
  timestamp : ℚ
deriving DecidableEq, Repr

/-- `const MAX_ACCEPTABLE_ACCURACY_METERS = 150` (LocationService.js line 19). -/
def MAX_ACCEPTABLE_ACCURACY_METERS : ℚ := 150

/-- The accuracy-filter test of `handleLocationUpdate` lines 188–189:
`accuracy !== null && accuracy > MAX_ACCEPTABLE_ACCURACY_METERS`.
`true` means the fix is dropped. -/
def accuracyRejected (accuracy : Option ℚ) : Bool :=
  match accuracy with
  | none => false
  | some a => decide (a > MAX_ACCEPTABLE_ACCURACY_METERS)

/-- JavaScript falsiness of a nullable string field: `!x` is true for
`null`/`undefined` and for the empty string. -/
def jsFalsy : Option String → Bool
  | none => true
  | some s => decide (s = "")

/-- The queue capacity bound hard-coded in `enqueue` (line 252). -/
def QUEUE_CAPACITY : Nat := 2000

/-- `enqueue(payload)` (lines 247–257): read the stored queue (a missing key
is the empty array), `push` the payload, and if the length now exceeds 2000,
`splice(0, length - 2000)` — drop that many entries from the front — then
write the result back.  Returns the list written back to storage. -/
def enqueue (raw : Option (List α)) (payload : α) : List α :=
  let queue := raw.getD []
  let queue := queue ++ [payload]
  if queue.length > QUEUE_CAPACITY then queue.drop (queue.length - QUEUE_CAPACITY)
  else queue

/-- Storage state after a sequence of `enqueue` calls starting from a missing
key (`none`): each call stores the list `enqueue` produced. -/
def runEnqueues (ps : List α) : Option (List α) :=
  ps.foldl (fun s p => some (enqueue s p)) none

/-- Length of the queue `enqueue` writes back: capped at the capacity. -/
theorem enqueue_length (raw : Option (List α)) (p : α) :
    (enqueue raw p).length = min ((raw.getD []).length + 1) QUEUE_CAPACITY
      ∨ (enqueue raw p).length = (raw.getD []).length + 1 := by
  unfold enqueue
  by_cases h : (raw.getD []).length + 1 > QUEUE_CAPACITY
  · left
    simp only [List.length_append, List.length_cons, List.length_nil]
    rw [if_pos (by simpa using h)]
    simp only [List.length_drop, List.length_append, List.length_cons, List.length_nil]
    omega
  · right
    simp only [List.length_append, List.length_cons, List.length_nil]
    rw [if_neg (by simpa using h)]
    simp

/-- The stored queue stays within capacity once it is within capacity. -/
theorem enqueue_length_le (raw : Option (List α)) (p : α)
    (h : (raw.getD []).length ≤ QUEUE_CAPACITY) :
    (enqueue raw p).length ≤ QUEUE_CAPACITY := by
  unfold enqueue
  by_cases hgt : (raw.getD []).length + 1 > QUEUE_CAPACITY
  · rw [if_pos (by simpa using hgt)]
    simp only [List.length_drop, List.length_append, List.length_cons, List.length_nil]
    omega
  · rw [if_neg (by simpa using hgt)]
    simp only [List.length_append, List.length_cons, List.length_nil]
    omega

/-- After any sequence of appends, the stored queue holds at most 2000 entries. -/
theorem runEnqueues_length_le (ps : List α) :
    ((runEnqueues ps).getD []).length ≤ QUEUE_CAPACITY := by
  suffices h : ∀ (s : Option (List α)), (s.getD []).length ≤ QUEUE_CAPACITY →
      ((ps.foldl (fun s p => some (enqueue s p)) s).getD []).length ≤ QUEUE_CAPACITY by
    exact h none (by simp [QUEUE_CAPACITY])
  induction ps with
  | nil => intro s hs; simpa using hs
  | cons p ps ih =>
    intro s hs
    exact ih (some (enqueue s p)) (by simpa using enqueue_length_le s p hs)

/-- Appending to a full queue of 2000 entries drops exactly the single oldest
entry: the result is the old queue minus its head, with the new entry last. -/
theorem enqueue_full (q : List α) (p : α) (h : q.length = QUEUE_CAPACITY) :
    enqueue (some q) p = q.drop 1 ++ [p] := by
  unfold enqueue
  simp only [Option.getD_some]
  rw [if_pos (by simp [h, QUEUE_CAPACITY])]
  have hq : q ≠ [] := by
    intro hnil; rw [hnil] at h; simp [QUEUE_CAPACITY] at h
  have hdrop : (q ++ [p]).length - QUEUE_CAPACITY = 1 := by
    simp [h]
  rw [hdrop, List.drop_append_of_le_length (by simp [h, QUEUE_CAPACITY])]

/-- The entry just appended is always the last element of the stored queue:
eviction happens only at the front, never to the newest entry. -/
theorem enqueue_getLast (raw : Option (List α)) (p : α) :
    (enqueue raw p).getLast? = some p := by
  unfold enqueue
  by_cases h : ((raw.getD []) ++ [p]).length > QUEUE_CAPACITY
  · rw [if_pos h]
    have hle : ((raw.getD []) ++ [p]).length - QUEUE_CAPACITY ≤ (raw.getD []).length := by
      simp only [List.length_append, List.length_cons, List.length_nil, QUEUE_CAPACITY]
      omega
    rw [List.drop_append_of_le_length hle,
      List.getLast?_append_of_ne_nil _ (by simp)]
    simp
  · rw [if_neg h, List.getLast?_append_of_ne_nil _ (by simp)]
    simp

/-- `const CHUNK_SIZE = 50` (flushQueue, line 278). -/
def CHUNK_SIZE : Nat := 50

/-- Splitting a list into consecutive chunks of `n` (`queue.slice(i, i + n)`
for `i = 0, n, 2n, …`).  The loop over the start index `i` is represented as
recursion on the remaining suffix, with the list length as fuel (each step
consumes at least one element when `n ≥ 1`). -/
def chunksGo (n : Nat) : Nat → List α → List (List α)
  | 0, _ => []
  | _, [] => []
  | fuel+1, l => l.take n :: chunksGo n fuel (l.drop n)

/-- The consecutive chunks of size `n` of a list. -/
def chunksOf (n : Nat) (l : List α) : List (List α) := chunksGo n l.length l

/-- The batch loop of `flushQueue` (lines 278–297): take the next chunk of 50,
POST it; on `res.ok` add the chunk's length to `sent` and continue with the
next start index, otherwise (non-ok response, or thrown/timed-out fetch)
`break`.  Returns `sent` together with the chunks POSTed, in the order the
POSTs were attempted (the failing POST was still attempted, so its chunk is
recorded too).  The loop over the start index `i` is recursion on the suffix
`queue.drop i`, with the length as fuel. -/
def flushLoop (post : List α → Bool) : Nat → List α → Nat × List (List α)
  | 0, _ => (0, [])
  | _, [] => (0, [])
  | fuel+1, l =>
    let chunk := l.take CHUNK_SIZE
    if post chunk then
      let r := flushLoop post fuel (l.drop CHUNK_SIZE)
      (chunk.length + r.1, chunk :: r.2)
    else (0, [chunk])

/-- The batch loop run on a whole queue (fuel = length is always enough). -/
def flushRun (post : List α → Bool) (queue : List α) : Nat × List (List α) :=
  flushLoop post queue.length queue

/-- Result of one `flushQueue()` run: the final storage state and the batch
bodies POSTed. -/
structure FlushOutcome (α : Type u) where
  storage : Option (List α)
  posted : List (List α)
deriving DecidableEq, Repr

/-- `flushQueue()` (lines 259–310): return at once when offline; read the raw
stored value and return when the key is missing or the queue parses empty;
return when no identifiers are bound (`!this.technicianId || !this.userId`);
otherwise run the batch loop, write back `queue.slice(sent)`, and when the
remainder is empty remove the key (`clearQueue()`). -/
def flushQueue (connected : Bool) (technicianId userId : Option String)
    (raw : Option (List α)) (post : List α → Bool) : FlushOutcome α :=
  if !connected then ⟨raw, []⟩
  else match raw with
  | none => ⟨none, []⟩
  | some queue =>
    if queue.length = 0 then ⟨some queue, []⟩
    else if jsFalsy technicianId || jsFalsy userId then ⟨some queue, []⟩
    else
      let r := flushRun post queue
      let remaining := queue.drop r.1
      if remaining.length = 0 then ⟨none, r.2⟩ else ⟨some remaining, r.2⟩

theorem flushLoop_nil (post : List α → Bool) (fuel : Nat) :
    flushLoop post fuel [] = (0, []) := by
  cases fuel <;> rfl

/-- Any two sufficient fuels give the batch loop the same result. -/
theorem flushLoop_congr (post : List α → Bool) :
    ∀ (fuel₁ fuel₂ : Nat) (l : List α), l.length ≤ fuel₁ → l.length ≤ fuel₂ →
      flushLoop post fuel₁ l = flushLoop post fuel₂ l := by
  intro fuel₁
  induction fuel₁ with
  | zero =>
    intro fuel₂ l h₁ _
    have : l = [] := List.length_eq_zero.mp (Nat.le_zero.mp h₁)
    subst this
    rw [flushLoop_nil, flushLoop_nil]
  | succ fuel ih =>
    intro fuel₂ l h₁ h₂
    match l, fuel₂ with
    | [], _ => rw [flushLoop_nil, flushLoop_nil]
    | a :: as, fuel₂ + 1 =>
      show (let chunk := (a :: as).take CHUNK_SIZE; _) = (let chunk := (a :: as).take CHUNK_SIZE; _)
      simp only [flushLoop]
      have hlen : ((a :: as).drop CHUNK_SIZE).length ≤ fuel := by
        simp only [List.length_drop, List.length_cons] at h₁ ⊢
        simp only [CHUNK_SIZE]
        omega
      have hlen₂ : ((a :: as).drop CHUNK_SIZE).length ≤ fuel₂ := by
        simp only [List.length_drop, List.length_cons] at h₂ ⊢
        simp only [CHUNK_SIZE]
        omega
      rw [ih fuel₂ ((a :: as).drop CHUNK_SIZE) hlen hlen₂]

theorem flushRun_nil (post : List α → Bool) : flushRun post [] = (0, []) := rfl

/-- Unfolding the batch loop one chunk at a time. -/
theorem flushRun_cons (post : List α → Bool) (l : List α) (h : l ≠ []) :
    flushRun post l =
      if post (l.take CHUNK_SIZE) then
        ((l.take CHUNK_SIZE).length + (flushRun post (l.drop CHUNK_SIZE)).1,
          l.take CHUNK_SIZE :: (flushRun post (l.drop CHUNK_SIZE)).2)
      else (0, [l.take CHUNK_SIZE]) := by
  match l with
  | a :: as =>
    show flushLoop post (as.length + 1) (a :: as) = _
    simp only [flushLoop]
    have : flushLoop post as.length ((a :: as).drop CHUNK_SIZE) =
        flushRun post ((a :: as).drop CHUNK_SIZE) := by
      apply flushLoop_congr
      · simp only [List.length_drop, List.length_cons, CHUNK_SIZE]; omega
      · exact Nat.le_refl _
    rw [this]

theorem chunksGo_nil (n fuel : Nat) : chunksGo (α := α) n fuel [] = [] := by
  cases fuel <;> rfl

theorem chunksGo_congr (n : Nat) (hn : 1 ≤ n) :
    ∀ (fuel₁ fuel₂ : Nat) (l : List α), l.length ≤ fuel₁ → l.length ≤ fuel₂ →
      chunksGo n fuel₁ l = chunksGo n fuel₂ l := by
  intro fuel₁
  induction fuel₁ with
  | zero =>
    intro fuel₂ l h₁ _
    have : l = [] := List.length_eq_zero.mp (Nat.le_zero.mp h₁)
    subst this
    rw [chunksGo_nil, chunksGo_nil]
  | succ fuel ih =>
    intro fuel₂ l h₁ h₂
    match l, fuel₂ with
    | [], _ => rw [chunksGo_nil, chunksGo_nil]
    | a :: as, fuel₂ + 1 =>
      simp only [chunksGo]
      have hlen : ((a :: as).drop n).length ≤ fuel := by
        simp only [List.length_drop, List.length_cons] at h₁ ⊢
        omega
      have hlen₂ : ((a :: as).drop n).length ≤ fuel₂ := by
        simp only [List.length_drop, List.length_cons] at h₂ ⊢
        omega
      rw [ih fuel₂ ((a :: as).drop n) hlen hlen₂]

theorem chunksOf_nil (n : Nat) : chunksOf (α := α) n [] = [] := rfl

theorem chunksOf_cons (n : Nat) (hn : 1 ≤ n) (l : List α) (h : l ≠ []) :
    chunksOf n l = l.take n :: chunksOf n (l.drop n) := by
  match l with
  | a :: as =>
    show chunksGo n (as.length + 1) (a :: as) = _
    simp only [chunksGo]
    congr 1
    apply chunksGo_congr n hn
    · simp only [List.length_drop, List.length_cons]; omega
    · exact Nat.le_refl _

/-- When every batch POST succeeds, the loop confirms the whole queue and
POSTs exactly its consecutive chunks of 50, in order. -/
theorem flushRun_all_ok (post : List α → Bool) :
    ∀ (n : Nat) (queue : List α), queue.length ≤ n →
      (∀ j, CHUNK_SIZE * j < queue.length →
        post ((queue.drop (CHUNK_SIZE * j)).take CHUNK_SIZE) = true) →
      flushRun post queue = (queue.length, chunksOf CHUNK_SIZE queue) := by
  intro n
  induction n with
  | zero =>
    intro queue hlen _
    have : queue = [] := List.length_eq_zero.mp (Nat.le_zero.mp hlen)
    subst this
    rw [flushRun_nil, chunksOf_nil]
    simp
  | succ n ih =>
    intro queue hlen hall
    by_cases hq : queue = []
    · subst hq; rw [flushRun_nil, chunksOf_nil]; simp
    · have h0 : post (queue.take CHUNK_SIZE) = true := by
        have := hall 0 (by
          simp only [Nat.mul_zero]
          exact List.length_pos.mpr hq)
        simpa using this
      rw [flushRun_cons post queue hq, if_pos h0]
      have hdroplen : (queue.drop CHUNK_SIZE).length ≤ n := by
        have h1 : 1 ≤ queue.length := List.length_pos.mpr hq
        simp only [List.length_drop, CHUNK_SIZE]
        omega
      have hall' : ∀ j, CHUNK_SIZE * j < (queue.drop CHUNK_SIZE).length →
          post (((queue.drop CHUNK_SIZE).drop (CHUNK_SIZE * j)).take CHUNK_SIZE) = true := by
        intro j hj
        have hjq : CHUNK_SIZE * (j + 1) < queue.length := by
          simp only [List.length_drop] at hj
          simp only [Nat.mul_add, Nat.mul_one]
          omega
        have := hall (j + 1) hjq
        rw [List.drop_drop]
        have harith : CHUNK_SIZE + CHUNK_SIZE * j = CHUNK_SIZE * (j + 1) := by ring
        rw [harith]
        exact this
      rw [ih (queue.drop CHUNK_SIZE) hdroplen hall']
      rw [chunksOf_cons CHUNK_SIZE (by simp [CHUNK_SIZE]) queue hq]
      have hsum : (queue.take CHUNK_SIZE).length + (queue.drop CHUNK_SIZE).length =
          queue.length := by
        simp only [List.length_take, List.length_drop]
        omega
      rw [Prod.mk.injEq]
      constructor
      · exact hsum
      · rfl

/-- When the POSTs of the first `k` chunks succeed and the POST of chunk `k`
fails, the loop confirms exactly the `CHUNK_SIZE * k` entries of the first `k`
chunks and POSTed exactly chunks `0 … k`. -/
theorem flushRun_fail_at (post : List α → Bool) :
    ∀ (k : Nat) (queue : List α), CHUNK_SIZE * k < queue.length →
      (∀ j, j < k → post ((queue.drop (CHUNK_SIZE * j)).take CHUNK_SIZE) = true) →
      post ((queue.drop (CHUNK_SIZE * k)).take CHUNK_SIZE) = false →
      flushRun post queue = (CHUNK_SIZE * k, (chunksOf CHUNK_SIZE queue).take (k + 1)) := by
  intro k
  induction k with
  | zero =>
    intro queue hk _ hfail
    have hq : queue ≠ [] := by
      intro h; subst h; simp at hk
    simp only [Nat.mul_zero, List.drop_zero] at hfail
    rw [flushRun_cons post queue hq, if_neg (by simp [hfail])]
    rw [chunksOf_cons CHUNK_SIZE (by simp [CHUNK_SIZE]) queue hq]
    simp
  | succ k ih =>
    intro queue hk hprev hfail
    have hq : queue ≠ [] := by
      intro h; subst h; simp at hk
    have h0 : post (queue.take CHUNK_SIZE) = true := by
      have := hprev 0 (Nat.succ_pos k)
      simpa using this
    rw [flushRun_cons post queue hq, if_pos h0]
    have hk' : CHUNK_SIZE * k < (queue.drop CHUNK_SIZE).length := by
      simp only [List.length_drop]
      simp only [Nat.mul_succ] at hk
      omega
    have hprev' : ∀ j, j < k →
        post (((queue.drop CHUNK_SIZE).drop (CHUNK_SIZE * j)).take CHUNK_SIZE) = true := by
      intro j hj
      rw [List.drop_drop]
      have harith : CHUNK_SIZE + CHUNK_SIZE * j = CHUNK_SIZE * (j + 1) := by ring
      rw [harith]
      exact hprev (j + 1) (Nat.succ_lt_succ hj)
    have hfail' :
        post (((queue.drop CHUNK_SIZE).drop (CHUNK_SIZE * k)).take CHUNK_SIZE) = false := by
      rw [List.drop_drop]
      have harith : CHUNK_SIZE + CHUNK_SIZE * k = CHUNK_SIZE * (k + 1) := by ring
      rw [harith]
      exact hfail
    rw [ih (queue.drop CHUNK_SIZE) hk' hprev' hfail']
    have htake : (queue.take CHUNK_SIZE).length = CHUNK_SIZE := by
      simp only [List.length_take]
      simp only [Nat.mul_succ] at hk
      omega
    rw [chunksOf_cons CHUNK_SIZE (by simp [CHUNK_SIZE]) queue hq]
    rw [Prod.mk.injEq]
    constructor
    · rw [htake]; ring
    · rfl

/-- In-memory fields of the `LocationService` singleton (constructor, lines
51–59) that the embedded operations read and write.  `foregroundCallback`
records whether a display callback is registered, `syncInterval` and
`foregroundSubscription` hold runtime handles (modelled as numeric ids). -/
structure InstanceState where
  technicianId : Option String
  userId : Option String
  isTracking : Bool
  usingBackgroundTask : Bool
  syncInterval : Option Nat
  foregroundCallback : Bool
  foregroundSubscription : Option Nat
deriving DecidableEq, Repr

/-- The field values the constructor assigns (lines 51–59). -/
def initialInstance : InstanceState :=
  { technicianId := none, userId := none, isTracking := false,
    usingBackgroundTask := false, syncInterval := none,
    foregroundCallback := false, foregroundSubscription := none }

/-- The payload built by `handleLocationUpdate` (lines 199–209) from the
bound identifiers and the sample.  The source formats the timestamp as an ISO
string; the embedding keeps the underlying numeric timestamp. -/
def mkPayload (technicianId userId : String) (location : LocationObject) : Payload :=
  { technicianId := technicianId, userId := userId,
    lat := location.coords.latitude, lng := location.coords.longitude,
    accuracy := location.coords.accuracy, speed := location.coords.speed,
    heading := location.coords.heading, altitude := location.coords.altitude,
    timestamp := location.timestamp }

/-- Observable result of one `handleLocationUpdate` run: whether the caller's
display callback fired, whether a single-sample POST was attempted, whether it
succeeded, and the offline-queue storage afterwards. -/
structure HandleOutcome where
  callbackInvoked : Bool
  postAttempted : Bool
  delivered : Bool
  storage : Option (List Payload)
deriving DecidableEq, Repr

/-- `handleLocationUpdate(location)` (lines 177–223): skip when the bound
identifiers are falsy; drop (after firing the display callback) when the
accuracy filter rejects; otherwise fire the callback, build the payload and
try delivery — `net` is the result of `NetInfo.fetch()` (`Except.error ()`
when it throws, else `isConnected`), `postOk` what `postLocation` returns for
this payload (`false` already covers network error, non-2xx and timeout,
exactly as `postLocation`'s `catch` does).  A failed or impossible delivery,
or a thrown `NetInfo.fetch`, appends the payload to the offline queue. -/
def handleLocationUpdate (inst : InstanceState) (location : LocationObject)
    (net : Except Unit Bool) (postOk : Bool)
    (storage : Option (List Payload)) : HandleOutcome :=
  if jsFalsy inst.technicianId || jsFalsy inst.userId then
    ⟨false, false, false, storage⟩
  else if accuracyRejected location.coords.accuracy then
    ⟨inst.foregroundCallback, false, false, storage⟩
  else
    let payload := mkPayload (inst.technicianId.getD "") (inst.userId.getD "") location
    match net with
    | Except.error _ => ⟨inst.foregroundCallback, false, false, some (enqueue storage payload)⟩
    | Except.ok isConnected =>
      if isConnected then
        if postOk then ⟨inst.foregroundCallback, true, true, storage⟩
        else ⟨inst.foregroundCallback, true, false, some (enqueue storage payload)⟩
      else ⟨inst.foregroundCallback, false, false, some (enqueue storage payload)⟩

/-- `stopTracking()` (lines 138–162): stop the background task when it is
registered, remove the foreground subscription when present, clear the flusher
interval when present, then reset `isTracking` and null both identifiers.
`taskRegistered` is whether the background task is registered with the OS
before the call; the returned `Bool` is that state afterwards. -/
def stopTracking (inst : InstanceState) (taskRegistered : Bool) :
    InstanceState × Bool :=
  let registered := if taskRegistered then false else taskRegistered
  let inst := if inst.foregroundSubscription.isSome then
      { inst with foregroundSubscription := none } else inst
  let inst := if inst.syncInterval.isSome then
      { inst with syncInterval := none } else inst
  ({ inst with isTracking := false, technicianId := none, userId := none },
    registered)

/-- Timer-accounting world: the singleton's fields, the module-level
`API_BASE_URL`, and the ids of `setInterval` timers currently scheduled and
not yet cleared. -/
structure TimerWorld where
  inst : InstanceState
  apiBase : String
  liveTimers : List Nat
deriving DecidableEq, Repr

/-- `init(apiBase, technicianId, userId)` (lines 61–67): set `API_BASE_URL`,
bind the new identifiers, `clearInterval` the previous flusher timer when one
exists, then `setInterval` a fresh 30 s flusher timer; `fresh` is the id the
runtime hands back for the new timer. -/
def init (w : TimerWorld) (apiBase technicianId userId : String)
    (fresh : Nat) : TimerWorld :=
  let inst := { w.inst with technicianId := some technicianId, userId := some userId }
  let live := match inst.syncInterval with
    | some t => w.liveTimers.erase t
    | none => w.liveTimers
  { inst := { inst with syncInterval := some fresh },
    apiBase := apiBase,
    liveTimers := fresh :: live }

/-- Timer-accounting invariant: the scheduled flusher timers are exactly the
one the singleton's `syncInterval` field holds (none before the first
`init`). -/
def flusherInv (w : TimerWorld) : Prop :=
  w.liveTimers = w.inst.syncInterval.toList

theorem init_flusherInv (w : TimerWorld) (a t u : String) (f : Nat)
    (h : flusherInv w) : flusherInv (init w a t u f) := by
  unfold flusherInv at h ⊢
  unfold init
  match hsync : w.inst.syncInterval with
  | none => simp [hsync, h, hsync ▸ h]
  | some t₀ =>
    rw [h, hsync]
    simp [hsync]

theorem foldl_init_flusherInv (calls : List (String × String × String × Nat))
    (w : TimerWorld) (h : flusherInv w) :
    flusherInv (calls.foldl (fun w c => init w c.1 c.2.1 c.2.2.1 c.2.2.2) w) := by
  induction calls generalizing w with
  | nil => exact h
  | cons c cs ih => exact ih _ (init_flusherInv w c.1 c.2.1 c.2.2.1 c.2.2.2 h)

theorem flusherInv_length_le (w : TimerWorld) (h : flusherInv w) :
    w.liveTimers.length ≤ 1 := by
  rw [h]
  cases w.inst.syncInterval <;> simp

/-- The storage states around an `enqueue p` that the event loop runs at one
of `flushQueue`'s `await` suspension points between its read of the stored
queue (line 264) and its write-back (line 300): first component is the
storage right after the interleaved append, second is the storage after the
flush completes — the flush still writes `queue.slice(sent)` computed from
the value it read before the append (overwriting the appended state), then
removes the key when that remainder is empty.  `queue` is the value the flush
read. -/
def flushRaceStates (queue : List α) (p : α) (post : List α → Bool) :
    Option (List α) × Option (List α) :=
  (some (enqueue (some queue) p),
    let sent := (flushRun post queue).1
    let remaining := queue.drop sent
    if remaining.length = 0 then none else some remaining)

/-- `const POLL_INTERVAL_MS = 10_000` (src/unnamed/part_000, line 36). -/
def POLL_INTERVAL_MS : Nat := 10000

/-- Milliseconds after entering `waiting` at which the `n`-th shift-status
poll fires (part_000 lines 217–231): one immediate `runPoll` on entry, then
`setInterval(() => runPoll(user), POLL_INTERVAL_MS)`. -/
def waitingPollTime (n : Nat) : Nat := n * POLL_INTERVAL_MS

/-- Milliseconds after entering `tracking` at which the `n`-th shift-status
poll fires (part_000 lines 235–245): `setInterval` with the same constant and
no immediate call. -/
def trackingPollTime (n : Nat) : Nat := (n + 1) * POLL_INTERVAL_MS

/-- On the path where every guard passes, `flushQueue` runs the batch loop
and writes back the unsent suffix (removing the key when it is empty). -/
theorem flushQueue_run (technicianId userId : Option String) (queue : List α)
    (post : List α → Bool) (hq : queue ≠ [])
    (htid : jsFalsy technicianId = false) (huid : jsFalsy userId = false) :
    flushQueue true technicianId userId (some queue) post =
      if (queue.drop (flushRun post queue).1).length = 0 then
        ⟨none, (flushRun post queue).2⟩
      else ⟨some (queue.drop (flushRun post queue).1), (flushRun post queue).2⟩ := by
  have hlen0 : ¬ queue.length = 0 := fun h0 => hq (List.length_eq_zero.mp h0)
  simp [flushQueue, htid, huid, hlen0]

/-- **C1** — refuted on the code, shown at the failing interleaving: the
flush read the stored queue `[0]`; sample `1` was enqueued at one of the
flush's await points (storage then held `[0, 1]`); every batch POST
succeeded.  The flush's write-back of `queue.slice(sent)` computed from its
stale read, followed by the empty-remainder clear, leaves the key removed:
the concurrently appended sample is lost, contradicting the claim that it is
still present after the flush completes. -/
theorem claim_C1_race_loses_append :
    (flushRaceStates [(0 : ℕ)] 1 (fun _ => true)).1 = some [0, 1]
    ∧ (flushRaceStates [(0 : ℕ)] 1 (fun _ => true)).2 = none := by
  constructor <;> rfl

/-- **C2**: the Accuracy Filter rejects a sample exactly when its accuracy
estimate is present and strictly greater than 150 m; a missing accuracy is
accepted, accuracy exactly 150 is accepted, and 150.01 is rejected. -/
theorem claim_C2_accuracy_filter :
    (∀ a : ℚ, accuracyRejected (some a) = true ↔ a > 150)
    ∧ accuracyRejected none = false
    ∧ accuracyRejected (some 150) = false
    ∧ accuracyRejected (some (15001 / 100)) = true := by
  refine ⟨?_, rfl, ?_, ?_⟩
  · intro a
    simp [accuracyRejected, MAX_ACCEPTABLE_ACCURACY_METERS]
  · simp [accuracyRejected, MAX_ACCEPTABLE_ACCURACY_METERS]
  · rw [show accuracyRejected (some (15001 / 100)) =
      decide ((15001 / 100 : ℚ) > MAX_ACCEPTABLE_ACCURACY_METERS) from rfl]
    rw [decide_eq_true_eq]
    unfold MAX_ACCEPTABLE_ACCURACY_METERS
    norm_num

/-- **C3**: over any sequence of appends the stored queue never exceeds 2000
entries; appending to a full queue of 2000 drops exactly the oldest entry, so
the result is the newest 2000 entries in insertion order; and the entry just
appended is always last in the stored queue — the newest is never evicted. -/
theorem claim_C3_queue_capacity :
    (∀ (ps : List Payload), ((runEnqueues ps).getD []).length ≤ 2000)
    ∧ (∀ (q : List Payload) (p : Payload), q.length = 2000 →
        enqueue (some q) p = q.drop 1 ++ [p])
    ∧ (∀ (raw : Option (List Payload)) (p : Payload),
        (enqueue raw p).getLast? = some p) :=
  ⟨fun ps => runEnqueues_length_le ps,
   fun q p h => enqueue_full q p h,
   fun raw p => enqueue_getLast raw p⟩

/-- A fixed payload used to instantiate witnesses. -/
def samplePayload : Payload :=
  { technicianId := "t", userId := "u", lat := 0, lng := 0, accuracy := none,
    speed := none, heading := none, altitude := none, timestamp := 0 }

theorem claim_C3_queue_capacity_witness :
    enqueue (some (List.replicate 2000 samplePayload)) samplePayload =
      (List.replicate 2000 samplePayload).drop 1 ++ [samplePayload] :=
  claim_C3_queue_capacity.2.1 (List.replicate 2000 samplePayload) samplePayload
    (by rw [List.length_replicate])

/-- **C4**: with connectivity, identifiers bound and no concurrent appends,
a flush splits a non-empty queue into consecutive 50-entry batches, POSTs
them sequentially in order, halts at the first failed batch, and leaves in
storage exactly the unsent suffix starting at the first failed batch (the
confirmed prefix removed, order preserved); when every batch succeeds the
queue key is removed — the queue is left empty. -/
theorem claim_C4_flush_batches (queue : List α)
    (technicianId userId : Option String) (post : List α → Bool)
    (htid : jsFalsy technicianId = false) (huid : jsFalsy userId = false) :
    (∀ k, CHUNK_SIZE * k < queue.length →
      (∀ j, j < k → post ((queue.drop (CHUNK_SIZE * j)).take CHUNK_SIZE) = true) →
      post ((queue.drop (CHUNK_SIZE * k)).take CHUNK_SIZE) = false →
      flushQueue true technicianId userId (some queue) post =
        ⟨some (queue.drop (CHUNK_SIZE * k)),
          (chunksOf CHUNK_SIZE queue).take (k + 1)⟩)
    ∧ ((∀ j, CHUNK_SIZE * j < queue.length →
          post ((queue.drop (CHUNK_SIZE * j)).take CHUNK_SIZE) = true) →
        queue ≠ [] →
        flushQueue true technicianId userId (some queue) post =
          ⟨none, chunksOf CHUNK_SIZE queue⟩) := by
  constructor
  · intro k hk hprev hfail
    have hq : queue ≠ [] := by
      intro h; subst h; simp at hk
    rw [flushQueue_run technicianId userId queue post hq htid huid]
    rw [flushRun_fail_at post k queue hk hprev hfail]
    have hrem : ¬ (queue.length - CHUNK_SIZE * k = 0) := by omega
    simp [hrem]
  · intro hall hq
    rw [flushQueue_run technicianId userId queue post hq htid huid]
    rw [flushRun_all_ok post queue.length queue (Nat.le_refl _) hall]
    simp

theorem claim_C4_flush_batches_witness :
    flushQueue true (some "t") (some "u") (some (List.range 120))
        (fun c => c.all (fun x => decide (x < 100))) =
      ⟨some ((List.range 120).drop (CHUNK_SIZE * 2)),
        (chunksOf CHUNK_SIZE (List.range 120)).take (2 + 1)⟩ :=
  (claim_C4_flush_batches (List.range 120) (some "t") (some "u")
      (fun c => c.all (fun x => decide (x < 100))) (by decide) (by decide)).1
    2 (by decide) (by decide) (by decide)

/-- **C5** — refuted on the code: the session screens schedule both the
waiting-screen and the tracking-screen shift-status polls from
`POLL_INTERVAL_MS`, which is 10 000 ms, so consecutive polls are 10 s apart
— not the 30-second period the claim (and the file's own comments and UI
copy) state. -/
theorem claim_C5_poll_period_is_10s :
    POLL_INTERVAL_MS = 10000 ∧ POLL_INTERVAL_MS ≠ 30000
    ∧ (∀ n, waitingPollTime (n + 1) - waitingPollTime n = 10000)
    ∧ (∀ n, trackingPollTime (n + 1) - trackingPollTime n = 10000) := by
  refine ⟨rfl, by decide, ?_, ?_⟩
  · intro n
    unfold waitingPollTime POLL_INTERVAL_MS
    omega
  · intro n
    unfold trackingPollTime POLL_INTERVAL_MS
    omega

/-- **C6**: a sample arriving with identifiers bound that passes the accuracy
filter is delivered when `NetInfo` reports connectivity and the POST returns
ok (storage untouched); in every other case — thrown `NetInfo.fetch`, no
connectivity, network error, non-2xx or timeout (all folded into
`postOk = false`) — the built payload is appended to the offline queue:
no such sample is dropped. -/
theorem claim_C6_no_silent_drop (inst : InstanceState) (location : LocationObject)
    (net : Except Unit Bool) (postOk : Bool) (storage : Option (List Payload))
    (htid : jsFalsy inst.technicianId = false) (huid : jsFalsy inst.userId = false)
    (hacc : accuracyRejected location.coords.accuracy = false) :
    ((net = Except.ok true ∧ postOk = true) →
      (handleLocationUpdate inst location net postOk storage).delivered = true
      ∧ (handleLocationUpdate inst location net postOk storage).storage = storage)
    ∧ (¬(net = Except.ok true ∧ postOk = true) →
      (handleLocationUpdate inst location net postOk storage).delivered = false
      ∧ (handleLocationUpdate inst location net postOk storage).storage =
          some (enqueue storage
            (mkPayload (inst.technicianId.getD "") (inst.userId.getD "") location))) := by
  cases net with
  | error e =>
    refine ⟨fun h => absurd h.1 (by simp), fun _ => ?_⟩
    simp [handleLocationUpdate, htid, huid, hacc]
  | ok isConnected =>
    cases isConnected
    · refine ⟨fun h => absurd h.1 (by simp), fun _ => ?_⟩
      simp [handleLocationUpdate, htid, huid, hacc]
    · cases postOk
      · refine ⟨fun h => absurd h.2 (by simp), fun _ => ?_⟩
        simp [handleLocationUpdate, htid, huid, hacc]
      · refine ⟨fun _ => ?_, fun h => absurd ⟨rfl, rfl⟩ h⟩
        simp [handleLocationUpdate, htid, huid, hacc]

/-- A fixed raw sample used to instantiate witnesses. -/
def sampleLocation : LocationObject :=
  { coords := { latitude := 1, longitude := 2, accuracy := some 30,
                speed := none, heading := none, altitude := none },
    timestamp := 0 }

/-- An instance state with identifiers bound, used in witnesses. -/
def boundInstance : InstanceState :=
  { initialInstance with technicianId := some "t", userId := some "u" }

theorem claim_C6_no_silent_drop_witness :
    (handleLocationUpdate boundInstance sampleLocation (Except.ok false) false none).delivered
        = false
    ∧ (handleLocationUpdate boundInstance sampleLocation (Except.ok false) false none).storage =
        some (enqueue none
          (mkPayload (boundInstance.technicianId.getD "")
            (boundInstance.userId.getD "") sampleLocation)) :=
  (claim_C6_no_silent_drop boundInstance sampleLocation (Except.ok false) false none
      (by decide) (by decide) (by decide)).2 (by simp)

/-- **C7**: a flush run attempts no batch POST and leaves the stored queue
unchanged whenever connectivity is unavailable or either identifier is unbound
(falsy); the loop is reached only when both identifiers are bound. -/
theorem claim_C7_flush_guard (connected : Bool) (technicianId userId : Option String)
    (raw : Option (List α)) (post : List α → Bool)
    (h : connected = false ∨ jsFalsy technicianId = true ∨ jsFalsy userId = true) :
    (flushQueue connected technicianId userId raw post).posted = []
    ∧ (flushQueue connected technicianId userId raw post).storage = raw := by
  match connected, raw with
  | false, raw => simp [flushQueue]
  | true, none => simp [flushQueue]
  | true, some queue =>
    have hguard : (jsFalsy technicianId || jsFalsy userId) = true := by
      rcases h with h | h | h
      · exact absurd h (by simp)
      · simp [h]
      · simp [h]
    by_cases hl : queue.length = 0
    · simp [flushQueue, hl]
    · simp [flushQueue, hl, hguard]

theorem claim_C7_flush_guard_witness :
    (flushQueue false (some "t") (some "u") (some [(0 : ℕ)]) (fun _ => true)).posted = []
    ∧ (flushQueue false (some "t") (some "u") (some [(0 : ℕ)]) (fun _ => true)).storage =
        some [0] :=
  claim_C7_flush_guard false (some "t") (some "u") (some [(0 : ℕ)]) (fun _ => true)
    (Or.inl rfl)

/-- **C8**: after `stopTracking()` the background task is deregistered, the
foreground subscription removed, the flusher timer cancelled, and both
identifiers cleared; running it again on the resulting (non-tracking) state
changes nothing — the call is a no-op there, not an error. -/
theorem claim_C8_stopTracking (inst : InstanceState) (taskRegistered : Bool) :
    (stopTracking inst taskRegistered).2 = false
    ∧ (stopTracking inst taskRegistered).1.foregroundSubscription = none
    ∧ (stopTracking inst taskRegistered).1.syncInterval = none
    ∧ (stopTracking inst taskRegistered).1.technicianId = none
    ∧ (stopTracking inst taskRegistered).1.userId = none
    ∧ (stopTracking inst taskRegistered).1.isTracking = false
    ∧ stopTracking (stopTracking inst taskRegistered).1
        (stopTracking inst taskRegistered).2 = stopTracking inst taskRegistered := by
  obtain ⟨tid, uid, trk, bg, sync, cb, sub⟩ := inst
  cases taskRegistered <;> cases sync <;> cases sub <;> simp [stopTracking]

/-- **C9**: a second `init` replaces the bound identifiers with the new ones
and cancels the previous flusher timer before scheduling the fresh one, so
exactly one flusher timer is live after it — and after any sequence of `init`
calls at most one flusher timer is live. -/
theorem claim_C9_init_idempotent (w : TimerWorld) (a₁ t₁ u₁ : String) (f₁ : Nat)
    (a₂ t₂ u₂ : String) (f₂ : Nat) (hinv : flusherInv w) :
    (init w a₁ t₁ u₁ f₁).liveTimers = [f₁]
    ∧ (init (init w a₁ t₁ u₁ f₁) a₂ t₂ u₂ f₂).liveTimers = [f₂]
    ∧ (init (init w a₁ t₁ u₁ f₁) a₂ t₂ u₂ f₂).inst.technicianId = some t₂
    ∧ (init (init w a₁ t₁ u₁ f₁) a₂ t₂ u₂ f₂).inst.userId = some u₂
    ∧ (init (init w a₁ t₁ u₁ f₁) a₂ t₂ u₂ f₂).inst.syncInterval = some f₂
    ∧ ∀ (calls : List (String × String × String × Nat)),
        ((calls.foldl (fun w c => init w c.1 c.2.1 c.2.2.1 c.2.2.2) w).liveTimers).length
          ≤ 1 := by
  have hinv₁ : flusherInv (init w a₁ t₁ u₁ f₁) := init_flusherInv w a₁ t₁ u₁ f₁ hinv
  have hinv₂ : flusherInv (init (init w a₁ t₁ u₁ f₁) a₂ t₂ u₂ f₂) :=
    init_flusherInv _ a₂ t₂ u₂ f₂ hinv₁
  have hlive₁ : (init w a₁ t₁ u₁ f₁).liveTimers = [f₁] := by
    rw [hinv₁]; rfl
  have hlive₂ : (init (init w a₁ t₁ u₁ f₁) a₂ t₂ u₂ f₂).liveTimers = [f₂] := by
    rw [hinv₂]; rfl
  refine ⟨hlive₁, hlive₂, rfl, rfl, rfl, fun calls => ?_⟩
  exact flusherInv_length_le _ (foldl_init_flusherInv calls w hinv)

theorem claim_C9_init_idempotent_witness :
    (init (init ⟨initialInstance, "", []⟩ "a" "t1" "u1" 1) "b" "t2" "u2" 2).liveTimers
      = [2] :=
  (claim_C9_init_idempotent ⟨initialInstance, "", []⟩ "a" "t1" "u1" 1
      "b" "t2" "u2" 2 rfl).2.1

/-- **C10**: a sample arriving while either identifier is unbound (falsy) is
skipped before anything observable happens: the display callback does not
fire, no delivery POST is attempted, nothing is delivered, and the stored
offline queue is unchanged. -/
theorem claim_C10_unbound_skip (inst : InstanceState) (location : LocationObject)
    (net : Except Unit Bool) (postOk : Bool) (storage : Option (List Payload))
    (h : jsFalsy inst.technicianId = true ∨ jsFalsy inst.userId = true) :
    handleLocationUpdate inst location net postOk storage =
      ⟨false, false, false, storage⟩ := by
  rcases h with h | h <;> simp [handleLocationUpdate, h]

theorem claim_C10_unbound_skip_witness :
    handleLocationUpdate initialInstance sampleLocation (Except.ok true) true
        (some [samplePayload]) =
      ⟨false, false, false, some [samplePayload]⟩ :=
  claim_C10_unbound_skip initialInstance sampleLocation (Except.ok true) true
    (some [samplePayload]) (Or.inl rfl)

end FleetTracker
